import Mathlib

/-!
Verification development for the `video-kyc` admissions document review
orchestrator (`src/services/AtlasApiClient.js`, class `VerificationScheduler`).

The JavaScript source is shallowly embedded: asynchronous remote calls are
oracles supplied as function arguments (the settled result of each invocation),
the cooperative stop flag is an observation schedule (which loop iterations see
the flag raised), wall-clock timestamps and console output are not modelled,
and `sleep` calls are recorded as a list of requested delays.  JavaScript
strings are Lean `String`s; a missing/`null` string field is modelled as `""`
(both are falsy in the source's truthiness tests).
-/

namespace VideoKyc

/-- Model of JavaScript `s && s.trim() !== ''`: a string field carries content
iff it has at least one non-whitespace character (the empty string, modelling
`null`/`undefined`/`''`, has none). -/
def hasContent (s : String) : Bool :=
  !(s.data.all Char.isWhitespace)

/-- Character-list matching at the head: `leadsWith p c` holds iff `p` is an
initial segment of `c`. -/
def leadsWith : List Char → List Char → Bool
  | [], _ => true
  | _ :: _, [] => false
  | p :: ps, c :: cs => p == c && leadsWith ps cs

/-- Substring search over character lists. -/
def hasSub (pat : List Char) : List Char → Bool
  | [] => leadsWith pat []
  | c :: cs => leadsWith pat (c :: cs) || hasSub pat cs

/-- Model of JavaScript `String.prototype.includes`. -/
def strIncludes (s pat : String) : Bool :=
  hasSub pat.data s.data

/-- Error classification from `withRetry` (AtlasApiClient.js:135): messages
containing `429`, `quota`, `401` or `403` are non-retryable. -/
def nonRetryable (msg : String) : Bool :=
  strIncludes msg "429" || strIncludes msg "quota" ||
    strIncludes msg "401" || strIncludes msg "403"

/-- One diagnostic event: level and message (timestamps and structured payload
are environment-supplied in the source and not modelled). -/
structure LogEntry where
  level : String
  message : String
  deriving DecidableEq, Repr

/-- Bounded append used by both `log` (AtlasApiClient.js:112-115) and
`finishRun` (AtlasApiClient.js:530-533): push, then if the buffer exceeds the
capacity keep only the last `cap` entries (`slice(-cap)`). -/
def pushBounded (cap : Nat) (buf : List α) (e : α) : List α :=
  let l2 := buf ++ [e]
  if l2.length > cap then l2.drop (l2.length - cap) else l2

/-- Log-buffer capacity `this.maxLogs` (AtlasApiClient.js:96). -/
def maxLogs : Nat := 500

/-- Run-history capacity `this.maxRuns` (AtlasApiClient.js:97). -/
def maxRuns : Nat := 50

/-- Observable trace of one `withRetry` call (AtlasApiClient.js:126-147):
the settled result, how many times the wrapped operation ran, the sleeps
requested between attempts, and the warn/error log events emitted. -/
structure RetryTrace (α : Type) where
  result : Except String α
  attemptsMade : Nat
  delays : List Nat
  logs : List LogEntry
  deriving Repr

/-- Loop body of `withRetry`.  `attempt` is the 1-based attempt counter and
`remaining` the number of loop iterations still available
(`retryAttempts - attempt + 1`); `attempt < retryAttempts` in the source is
`remaining ≥ 2` here.  `remaining = 0` models the degenerate `retryAttempts =
0` configuration, where the source's loop never runs and it throws the
undefined `lastError`. -/
def retryGo (retryDelayMs : Nat) (label : String) (fn : Nat → Except String α) :
    Nat → Nat → RetryTrace α
  | _, 0 => ⟨.error "", 0, [], []⟩
  | attempt, 1 =>
    match fn attempt with
    | .ok v => ⟨.ok v, 1, [], []⟩
    | .error msg =>
      if nonRetryable msg then
        ⟨.error msg, 1, [],
          [⟨"error", label ++ " failed with non-retryable error: " ++ msg⟩]⟩
      else
        ⟨.error msg, 1, [], []⟩
  | attempt, r + 2 =>
    match fn attempt with
    | .ok v => ⟨.ok v, 1, [], []⟩
    | .error msg =>
      if nonRetryable msg then
        ⟨.error msg, 1, [],
          [⟨"error", label ++ " failed with non-retryable error: " ++ msg⟩]⟩
      else
        let d := retryDelayMs * 2 ^ (attempt - 1)
        let rest := retryGo retryDelayMs label fn (attempt + 1) (r + 1)
        ⟨rest.result, rest.attemptsMade + 1, d :: rest.delays,
          ⟨"warn", label ++ " failed, retrying: " ++ msg⟩ :: rest.logs⟩

/-- Model of `withRetry(fn, label)` (AtlasApiClient.js:126-147).  `fn n` is the
settled result of the `n`-th invocation of the wrapped operation. -/
def withRetry (retryAttempts retryDelayMs : Nat) (label : String)
    (fn : Nat → Except String α) : RetryTrace α :=
  retryGo retryDelayMs label fn 1 retryAttempts

/-- Structured outcome returned by the Verification Backend
(DocumentVerificationService.parseAIResponse): `status` is a raw string
(`"approve"`/`"reject"` as instructed, but unvalidated), plus confidence,
remark, issues and extracted data. -/
structure Verification where
  status : String
  confidence : ℚ
  remark : String
  issues : List String
  extracted_data : List (String × String)
  deriving Repr, DecidableEq

/-- One row of the Work Source's `document_status` list as consumed by
`processStudent`.  `file_url = ""` models a missing/empty content reference,
`filename = ""` a missing filename. -/
structure Doc where
  document_type_id : Nat
  document_type_name : String
  document_label : String
  document_description : String
  document_is_required : String
  filename : String
  file_url : String
  verify_status : String
  doc_upload_id : Nat
  deriving Repr, DecidableEq

/-- Outcome `verifyDocument` fabricates for a document with no uploaded file
(AtlasApiClient.js:159-165). -/
def skipVerification : Verification :=
  { status := "skip", confidence := 0, remark := "Document not uploaded - skipped",
    issues := ["No file uploaded"], extracted_data := [] }

/-- Result of one `verifyDocument` call: the settled promise plus the number
of times the download-and-verify operation actually ran against the backend
(0 when the document was skipped before the `withRetry` wrapper). -/
structure VerifyDocResult where
  result : Except String Verification
  backendAttempts : Nat
  deriving Repr

/-- Model of `verifyDocument(doc)` (AtlasApiClient.js:155-179).  `beh n` is the
settled result of the `n`-th run of the inner download-and-verify closure. -/
def verifyDocument (retryAttempts retryDelayMs : Nat)
    (beh : Nat → Except String Verification) (doc : Doc) : VerifyDocResult :=
  if hasContent doc.file_url = false then
    ⟨.ok skipVerification, 0⟩
  else
    let t := withRetry retryAttempts retryDelayMs
      ("Verify " ++ doc.document_label) beh
    ⟨t.result, t.attemptsMade⟩

/-- Fuel-driven body of `chunkArray`; the fuel is the length of the original
list, which bounds the number of slices the source loop produces when
`size ≥ 1`. -/
def chunkFuel (size : Nat) : Nat → List α → List (List α)
  | 0, _ => []
  | _ + 1, [] => []
  | fuel + 1, x :: xs => (x :: xs).take size :: chunkFuel size fuel ((x :: xs).drop size)

/-- Model of `chunkArray(arr, size)` (AtlasApiClient.js:717-723).  For
`size = 0` the source loop never advances and does not terminate; that
configuration is modelled as `[]` and excluded by hypothesis wherever it
matters. -/
def chunkArray (arr : List α) (size : Nat) : List (List α) :=
  if size = 0 then [] else chunkFuel size arr.length arr

/-- Entry of `studentResult.allDocuments` (AtlasApiClient.js:218-234): every
work item as fetched, annotated with a nullable verification outcome. -/
structure AllDocEntry where
  document_type_id : Nat
  document_type_name : String
  document_label : String
  document_description : String
  is_required : Bool
  is_uploaded : Bool
  filename : String
  file_url : String
  verify_status : String
  doc_upload_id : Nat
  ai_status : Option String
  confidence : Option ℚ
  remark : Option String
  issues : Option (List String)
  extracted_data : Option (List (String × String))
  deriving Repr, DecidableEq

/-- Initial `allDocuments` projection of one fetched document
(AtlasApiClient.js:218-234). -/
def initEntry (d : Doc) : AllDocEntry :=
  { document_type_id := d.document_type_id
    document_type_name := d.document_type_name
    document_label := d.document_label
    document_description := d.document_description
    is_required := d.document_is_required == "1"
    is_uploaded := hasContent d.file_url
    filename := d.filename
    file_url := d.file_url
    verify_status := d.verify_status
    doc_upload_id := d.doc_upload_id
    ai_status := none
    confidence := none
    remark := none
    issues := none
    extracted_data := none }

/-- Entry of `studentResult.documents`: a processed document together with its
AI verdict (AtlasApiClient.js:279-290, 310-321, 356-367). -/
structure DocResult where
  document_type_id : Nat
  document_label : String
  document_type_name : String
  filename : String
  file_url : String
  ai_status : String
  confidence : ℚ
  remark : String
  issues : List String
  extracted_data : List (String × String)
  deriving Repr, DecidableEq

/-- One element of the `statusUpdates` array posted back to the Work Source
(AtlasApiClient.js:304-308, 350-354). -/
structure StatusUpdate where
  document_type_id : Nat
  doc_ai_status : String
  doc_ai_remark : String
  deriving Repr, DecidableEq

/-- Model of the in-place mutation of the element JavaScript `Array.find`
returns: rewrite the first element satisfying `p`, leave the rest alone. -/
def updateFirst (p : α → Bool) (f : α → α) : List α → List α
  | [] => []
  | x :: xs => if p x then f x :: xs else x :: updateFirst p f xs

/-- Mutable slice of `studentResult` threaded through the chunk loop of
`processStudent`, plus the loop-local `statusUpdates` accumulator. -/
structure ProcState where
  approved : Nat
  rejected : Nat
  errors : Nat
  skipped : Nat
  documents : List DocResult
  statusUpdates : List StatusUpdate
  allDocuments : List AllDocEntry
  deriving Repr, DecidableEq

/-- Merge of one settled `verifyDocument` promise into the student result
(AtlasApiClient.js:273-381): a fulfilled `skip` bumps `skipped`, a fulfilled
verdict maps `approve` to `Verified` (anything else to `reject`) and bumps the
matching counter, a rejection bumps `errors`; each case appends a `documents`
entry and rewrites the matching `allDocuments` entry in place. -/
def applyDocOutcome (d : Doc) (res : Except String Verification) (st : ProcState) :
    ProcState :=
  match res with
  | .ok v =>
    if v.status == "skip" then
      { st with
        skipped := st.skipped + 1
        documents := st.documents ++
          [{ document_type_id := d.document_type_id, document_label := d.document_label,
             document_type_name := d.document_type_name, filename := d.filename,
             file_url := d.file_url, ai_status := "skipped", confidence := 0,
             remark := v.remark, issues := v.issues, extracted_data := [] }]
        allDocuments := updateFirst
          (fun a => a.document_type_id == d.document_type_id)
          (fun a => { a with ai_status := some "skipped", remark := some v.remark })
          st.allDocuments }
    else
      let aiStatus := if v.status == "approve" then "Verified" else "reject"
      { st with
        approved := if aiStatus == "Verified" then st.approved + 1 else st.approved
        rejected := if aiStatus == "Verified" then st.rejected else st.rejected + 1
        statusUpdates := st.statusUpdates ++
          [{ document_type_id := d.document_type_id, doc_ai_status := aiStatus,
             doc_ai_remark := v.remark }]
        documents := st.documents ++
          [{ document_type_id := d.document_type_id, document_label := d.document_label,
             document_type_name := d.document_type_name, filename := d.filename,
             file_url := d.file_url, ai_status := aiStatus, confidence := v.confidence,
             remark := v.remark, issues := v.issues,
             extracted_data := v.extracted_data }]
        allDocuments := updateFirst
          (fun a => a.document_type_id == d.document_type_id)
          (fun a =>
            { a with
              ai_status := some aiStatus
              confidence := some v.confidence
              remark := some v.remark
              issues := some v.issues
              extracted_data := some v.extracted_data })
          st.allDocuments }
  | .error errMsg =>
      { st with
        errors := st.errors + 1
        statusUpdates := st.statusUpdates ++
          [{ document_type_id := d.document_type_id, doc_ai_status := "error",
             doc_ai_remark := "Verification failed: " ++ errMsg }]
        documents := st.documents ++
          [{ document_type_id := d.document_type_id, document_label := d.document_label,
             document_type_name := d.document_type_name, filename := d.filename,
             file_url := d.file_url, ai_status := "error", confidence := 0,
             remark := errMsg, issues := ["Verification process error"],
             extracted_data := [] }]
        allDocuments := updateFirst
          (fun a => a.document_type_id == d.document_type_id)
          (fun a =>
            { a with
              ai_status := some "error"
              confidence := some 0
              remark := some errMsg })
          st.allDocuments }

/-- One `Promise.allSettled` chunk merged in chunk order
(AtlasApiClient.js:265-382). -/
def processChunk (settled : Doc → Except String Verification)
    (chunk : List Doc) (st : ProcState) : ProcState :=
  chunk.foldl (fun s d0 => applyDocOutcome d0 (settled d0) s) st

/-- Chunk loop of `processStudent` (AtlasApiClient.js:259-388).  `stopAt k`
tells whether the cooperative `shouldStop` flag is observed raised just before
chunk number `k`; observing it breaks out of the loop. -/
def runChunks (stopAt : Nat → Bool) (settled : Doc → Except String Verification) :
    Nat → List (List Doc) → ProcState → ProcState
  | _, [], st => st
  | k, c :: cs, st =>
    if stopAt k then st
    else runChunks stopAt settled (k + 1) cs (processChunk settled c st)

/-- Runtime configuration fields that govern `processStudent` and `withRetry`
(AtlasApiClient.js:81-90; schedule/delay/auto-start fields only pace or trigger
execution and are not needed by the embedded logic). -/
structure Config where
  concurrency : Nat
  retryAttempts : Nat
  retryDelayMs : Nat
  skipAlreadyVerified : Bool
  deriving Repr

/-- Settled result of the retried `getDocumentList` call as `processStudent`
observes it: the retry chain kept throwing (caught at AtlasApiClient.js:405),
the response had `status !== 1` or no `document_status`
(AtlasApiClient.js:207), or a document list arrived. -/
inductive FetchResult
  | failed (msg : String)
  | noData
  | ok (docs : List Doc)

/-- Candidate list the chunk loop dispatches: the fetched documents that carry
a content reference (AtlasApiClient.js:236), minus — when
`skipAlreadyVerified` is set — those the Work Source already marks verified
(AtlasApiClient.js:240-242). -/
def candidateDocs (cfg : Config) (allDocs : List Doc) : List Doc :=
  let uploadedDocs0 := allDocs.filter (fun d => hasContent d.file_url)
  if cfg.skipAlreadyVerified then
    uploadedDocs0.filter (fun d => !(d.verify_status == "2"))
  else uploadedDocs0

/-- Per-student result record (AtlasApiClient.js:184-198), as populated on
return from `processStudent`. -/
structure StudentResult where
  applnID : String
  studentName : String
  status : String
  totalDocs : Nat
  uploaded : Nat
  approved : Nat
  rejected : Nat
  errors : Nat
  skipped : Nat
  allDocuments : List AllDocEntry
  documents : List DocResult
  deriving Repr, DecidableEq

/-- Model of `processStudent(applnID, studentName)`
(AtlasApiClient.js:183-416).  `beh d n` is the settled result of the `n`-th
run of the download-and-verify closure for document `d`; `stopAt` is the
chunk-boundary stop-flag observation schedule.  The best-effort
`updateDocumentStatus` write-back (AtlasApiClient.js:391-401) only logs and
never changes the computed result, so it is not threaded through. -/
def processStudent (cfg : Config) (applnID studentName : String)
    (fetch : FetchResult) (beh : Doc → Nat → Except String Verification)
    (stopAt : Nat → Bool) : StudentResult :=
  let base : StudentResult :=
    { applnID := applnID, studentName := studentName, status := "processing",
      totalDocs := 0, uploaded := 0, approved := 0, rejected := 0,
      errors := 0, skipped := 0, allDocuments := [], documents := [] }
  match fetch with
  | .failed _ => { base with status := "error" }
  | .noData => { base with status := "skipped" }
  | .ok allDocs =>
    let allDocuments := allDocs.map initEntry
    let uploaded := (allDocs.filter (fun d => hasContent d.file_url)).length
    let uploadedDocs := candidateDocs cfg allDocs
    let totalDocs := uploadedDocs.length
    if totalDocs = 0 then
      { base with
        status := "skipped"
        uploaded := uploaded
        allDocuments := allDocuments }
    else
      let chunks := chunkArray uploadedDocs cfg.concurrency
      let settled := fun d0 =>
        (verifyDocument cfg.retryAttempts cfg.retryDelayMs (beh d0) d0).result
      let final := runChunks stopAt settled 0 chunks
        ⟨0, 0, 0, 0, [], [], allDocuments⟩
      { base with
        status := if final.errors > 0 then "partial" else "completed"
        totalDocs := totalDocs
        uploaded := uploaded
        approved := final.approved
        rejected := final.rejected
        errors := final.errors
        skipped := final.skipped
        allDocuments := final.allDocuments
        documents := final.documents }

/-- Run record (AtlasApiClient.js:429-443).  `students = none` models the
`students: undefined` summary stored in history; an in-memory run carries
`some` list.  Timestamps and the time-derived id are environment inputs. -/
structure Run where
  id : String
  status : String
  totalStudents : Nat
  processed : Nat
  completed : Nat
  skipped : Nat
  errors : Nat
  totalDocsVerified : Nat
  totalApproved : Nat
  totalRejected : Nat
  students : Option (List StudentResult)
  deriving Repr, DecidableEq

/-- Scheduler-owned mutable state (AtlasApiClient.js:76-100): the
mutual-exclusion flag, the stop flag, the current run, bounded run history,
bounded log buffer and the per-student result map (as an insertion-ordered
association list, mirroring a JavaScript `Map`). -/
structure SchedState where
  isRunning : Bool
  shouldStop : Bool
  currentRun : Option Run
  runs : List Run
  logs : List LogEntry
  studentResults : List (String × StudentResult)

/-- Model of `Map.set`: overwrite the value at an existing key in place,
otherwise append. -/
def mapSet (m : List (String × StudentResult)) (k : String) (v : StudentResult) :
    List (String × StudentResult) :=
  if m.any (fun p => p.1 == k) then
    m.map (fun p => if p.1 == k then (k, v) else p)
  else m ++ [(k, v)]

/-- Model of `this.log(level, message)` at the scheduler level
(AtlasApiClient.js:105-122). -/
def logPush (st : SchedState) (level message : String) : SchedState :=
  { st with logs := pushBounded maxLogs st.logs ⟨level, message⟩ }

/-- Model of `finishRun()` (AtlasApiClient.js:527-535): clear the
mutual-exclusion flag and push a detail-stripped copy of the current run into
bounded history.  Note the source does not clear `currentRun`. -/
def finishRun (st : SchedState) : SchedState :=
  { st with
    isRunning := false
    runs := match st.currentRun with
      | some r => pushBounded maxRuns st.runs { r with students := none }
      | none => st.runs }

/-- Model of `getRunDetail(runId)` (AtlasApiClient.js:657-662). -/
def getRunDetail (st : SchedState) (runId : String) : Option Run :=
  match st.currentRun with
  | some r => if r.id == runId then some r else st.runs.find? (fun q => q.id == runId)
  | none => st.runs.find? (fun q => q.id == runId)

/-- Fold of one finished student result into the run counters
(AtlasApiClient.js:489-498). -/
def tallyStudent (run : Run) (r : StudentResult) : Run :=
  let run1 := { run with
    students := some ((run.students.getD []) ++ [r])
    processed := run.processed + 1 }
  if r.status == "completed" || r.status == "partial" then
    { run1 with
      completed := run1.completed + 1
      totalDocsVerified := run1.totalDocsVerified + r.totalDocs
      totalApproved := run1.totalApproved + r.approved
      totalRejected := run1.totalRejected + r.rejected }
  else if r.status == "skipped" then
    { run1 with skipped := run1.skipped + 1 }
  else
    { run1 with errors := run1.errors + 1 }

/-- Per-student inputs for a batch run: the identifier fields as the source
computes them at AtlasApiClient.js:477-481 (`applnID = ""` models a falsy id,
which the loop skips with `continue`), plus the oracles `processStudent`
needs. -/
structure StudentInput where
  applnID : String
  studentName : String
  fetch : FetchResult
  beh : Doc → Nat → Except String Verification
  stopChunk : Nat → Bool

/-- Student loop of `runBatch` (AtlasApiClient.js:470-504).  `stopStudent k`
is the stop-flag observation before loop iteration `k`; observing it marks the
run `stopped` and breaks. -/
def runStudents (cfg : Config) (stopStudent : Nat → Bool) :
    List StudentInput → Nat → Run → List (String × StudentResult) →
    Run × List (String × StudentResult)
  | [], _, run, resMap => (run, resMap)
  | s :: rest, k, run, resMap =>
    if stopStudent k then ({ run with status := "stopped" }, resMap)
    else if s.applnID == "" then runStudents cfg stopStudent rest (k + 1) run resMap
    else
      let r := processStudent cfg s.applnID s.studentName s.fetch s.beh s.stopChunk
      runStudents cfg stopStudent rest (k + 1) (tallyStudent run r)
        (mapSet resMap s.applnID r)

/-- Fresh run record as initialised at AtlasApiClient.js:429-443 and
AtlasApiClient.js:547-561. -/
def freshRun (runId : String) (totalStudents : Nat) : Run :=
  { id := runId, status := "running", totalStudents := totalStudents,
    processed := 0, completed := 0, skipped := 0, errors := 0,
    totalDocsVerified := 0, totalApproved := 0, totalRejected := 0,
    students := some [] }

/-- Model of `runBatch()` (AtlasApiClient.js:420-525).  `input` is the settled
retried `getStudentList` call: an exception (caught at line 510), a response
with no `data` field (line 454), or the normalised student list.  Returns the
value `runBatch` resolves with plus the post-state.  Diagnostic log calls
inside a non-busy run are not tracked here; the busy branch's single warning
is, since the busy no-op is exactly that log plus the `null` return. -/
def runBatch (cfg : Config) (runId : String)
    (input : Except String (Option (List StudentInput)))
    (stopStudent : Nat → Bool) (st : SchedState) : Option Run × SchedState :=
  if st.isRunning then
    (none, logPush st "warn" "Batch already running, skipping")
  else
    let st1 := { st with isRunning := true, shouldStop := false }
    match input with
    | .error _ =>
      let run := { freshRun runId 0 with status := "error" }
      (some run, finishRun { st1 with currentRun := some run })
    | .ok none =>
      let run := { freshRun runId 0 with status := "error" }
      (some run, finishRun { st1 with currentRun := some run })
    | .ok (some studs) =>
      let (run2, resMap) :=
        runStudents cfg stopStudent studs 0 (freshRun runId studs.length)
          st1.studentResults
      let run3 := if run2.status == "running" then { run2 with status := "completed" }
        else run2
      (some run3,
        finishRun { st1 with currentRun := some run3, studentResults := resMap })

/-- Model of `verifySingleStudent(applnID)` (AtlasApiClient.js:539-585):
rejected with a busy error while a run is active, otherwise processes the one
student, tallies it into a fresh single-student run, unconditionally marks the
run `completed`, and finalizes. -/
def verifySingleStudent (cfg : Config) (runId applnID : String)
    (fetch : FetchResult) (beh : Doc → Nat → Except String Verification)
    (stopChunk : Nat → Bool) (st : SchedState) : Except String (Run × SchedState) :=
  if st.isRunning then
    .error "A batch job is currently running. Wait for it to finish or stop it first."
  else
    let st1 := { st with isRunning := true, shouldStop := false }
    let r := processStudent cfg applnID applnID fetch beh stopChunk
    let run1 := tallyStudent (freshRun runId 1) r
    let run2 := { run1 with status := "completed" }
    .ok (run2,
      finishRun { st1 with
        currentRun := some run2
        studentResults := mapSet st1.studentResults applnID r })

/-- Sum of the four outcome counters of the chunk-loop state; the subject
invariant under scrutiny compares this with `totalDocs`. -/
def csum (st : ProcState) : Nat :=
  st.approved + st.rejected + st.errors + st.skipped

/-- Projection of an `allDocuments` entry to its work-item identifier. -/
def dtid (a : AllDocEntry) : Nat :=
  a.document_type_id

/-! Concrete scenario inputs used by the counterexamples and witnesses: the
spec's three-item subject (item A transiently failing twice then approving,
item B rejecting at once, item C carrying no content reference). -/

/-- Scenario item A: uploaded, approved on the third attempt. -/
def docA : Doc := ⟨1, "tA", "A", "", "1", "a.jpg", "uA", "0", 11⟩

/-- Scenario item B: uploaded, rejected on the first attempt. -/
def docB : Doc := ⟨2, "tB", "B", "", "1", "b.jpg", "uB", "0", 12⟩

/-- Scenario item C: no content reference (`file_url` empty). -/
def docC : Doc := ⟨3, "tC", "C", "", "0", "", "", "0", 13⟩

/-- Backend outcome approving a document. -/
def approveV : Verification := ⟨"approve", 9/10, "ok", [], []⟩

/-- Backend outcome rejecting a document. -/
def rejectV : Verification := ⟨"reject", 1/10, "bad", ["mismatch"], []⟩

/-- Scenario configuration: concurrency 2, 3 retry attempts, base delay
2000 ms, `skipAlreadyVerified` on. -/
def scnCfg : Config := ⟨2, 3, 2000, true⟩

/-- Scenario behaviour: item A's download-and-verify closure throws a
retryable error on its first two runs and approves on the third; every other
item rejects at once. -/
def scnBeh : Doc → Nat → Except String Verification := fun d n =>
  if d.document_type_id = 1 then
    (if n ≤ 2 then .error "ECONNRESET" else .ok approveV)
  else .ok rejectV

/-- Scenario subject result: the three items processed to completion with no
stop signal. -/
def resScn : StudentResult :=
  processStudent scnCfg "S1" "S1" (.ok [docA, docB, docC]) scnBeh (fun _ => false)

/-- Stop schedule observing the raised flag before every chunk but the
first. -/
def stopAfterOne : Nat → Bool := fun k => k != 0

/-- Two uploaded items under concurrency 1 with the stop flag observed before
the second chunk: the second item is never processed. -/
def resStop : StudentResult :=
  processStudent ⟨1, 3, 2000, true⟩ "S2" "S2" (.ok [docA, docB])
    (fun _ _ => .ok approveV) stopAfterOne

/-- Idle scheduler state: no run active, empty buffers. -/
def idleState : SchedState := ⟨false, false, none, [], [], []⟩

/-- Busy scheduler state: the mutual-exclusion flag is set. -/
def busyState : SchedState := ⟨true, false, none, [], [], []⟩

/-- Scenario on-demand run: `verifySingleStudent` on the three-item subject
from the idle state. -/
def scnVss : Except String (Run × SchedState) :=
  verifySingleStudent scnCfg "r1" "S1" (.ok [docA, docB, docC]) scnBeh
    (fun _ => false) idleState

/-! Helper lemmas. -/

theorem chunkFuel_flatten {size : Nat} (hs : 1 ≤ size) :
    ∀ (fuel : Nat) (l : List α), l.length ≤ fuel →
      (chunkFuel size fuel l).flatten = l := by
  intro fuel
  induction fuel with
  | zero =>
    intro l hl
    have : l = [] := List.eq_nil_of_length_eq_zero (Nat.le_zero.mp hl)
    subst this
    simp [chunkFuel]
  | succ n ih =>
    intro l hl
    cases l with
    | nil => simp [chunkFuel]
    | cons x xs =>
      have hdrop : ((x :: xs).drop size).length ≤ n := by
        rw [List.length_drop]
        simp only [List.length_cons] at hl ⊢
        omega
      simp only [chunkFuel, List.flatten_cons, ih _ hdrop]
      exact List.take_append_drop size (x :: xs)

theorem chunkFuel_mem_length {size : Nat} :
    ∀ {fuel : Nat} {l c : List α}, c ∈ chunkFuel size fuel l → c.length ≤ size := by
  intro fuel
  induction fuel with
  | zero => intro l c h; simp [chunkFuel] at h
  | succ n ih =>
    intro l c h
    cases l with
    | nil => simp [chunkFuel] at h
    | cons x xs =>
      simp only [chunkFuel, List.mem_cons] at h
      rcases h with h | h
      · subst h; exact List.length_take_le _ _
      · exact ih h

theorem chunkFuel_mem_flatten {size : Nat} :
    ∀ {fuel : Nat} {l : List α} {x : α},
      x ∈ (chunkFuel size fuel l).flatten → x ∈ l := by
  intro fuel
  induction fuel with
  | zero => intro l x h; simp [chunkFuel] at h
  | succ n ih =>
    intro l x h
    cases l with
    | nil => simp [chunkFuel] at h
    | cons y ys =>
      simp only [chunkFuel, List.flatten_cons, List.mem_append] at h
      rcases h with h | h
      · exact List.mem_of_mem_take h
      · exact List.mem_of_mem_drop (ih h)

theorem chunkArray_flatten {size : Nat} (hs : 1 ≤ size) (l : List α) :
    (chunkArray l size).flatten = l := by
  unfold chunkArray
  rw [if_neg (by omega)]
  exact chunkFuel_flatten hs _ l le_rfl

theorem chunkArray_mem_length {size : Nat} {l c : List α}
    (h : c ∈ chunkArray l size) : c.length ≤ size := by
  unfold chunkArray at h
  split at h
  · simp at h
  · exact chunkFuel_mem_length h

theorem chunkArray_mem_flatten {size : Nat} {l : List α} {x : α}
    (h : x ∈ (chunkArray l size).flatten) : x ∈ l := by
  unfold chunkArray at h
  split at h
  · simp at h
  · exact chunkFuel_mem_flatten h

theorem mem_updateFirst {p : α → Bool} {f : α → α} {l : List α} {a' : α}
    (h : a' ∈ updateFirst p f l) :
    a' ∈ l ∨ ∃ a, a ∈ l ∧ p a = true ∧ a' = f a := by
  induction l with
  | nil => simp [updateFirst] at h
  | cons x xs ih =>
    by_cases hx : p x
    · simp only [updateFirst, if_pos hx, List.mem_cons] at h
      rcases h with h | h
      · exact Or.inr ⟨x, List.mem_cons_self x xs, hx, h⟩
      · exact Or.inl (List.mem_cons_of_mem x h)
    · simp only [updateFirst, if_neg hx, List.mem_cons] at h
      rcases h with h | h
      · exact Or.inl (h ▸ List.mem_cons_self x xs)
      · rcases ih h with h' | ⟨a, ha, hp, he⟩
        · exact Or.inl (List.mem_cons_of_mem x h')
        · exact Or.inr ⟨a, List.mem_cons_of_mem x ha, hp, he⟩

theorem map_updateFirst {p : α → Bool} {f : α → α} {g : α → β}
    (hg : ∀ a, g (f a) = g a) (l : List α) :
    (updateFirst p f l).map g = l.map g := by
  induction l with
  | nil => rfl
  | cons x xs ih =>
    by_cases hx : p x
    · simp [updateFirst, hx, hg]
    · simp [updateFirst, hx, ih]

theorem updateFirst_preserve {p : α → Bool} {f : α → α} {P : α → Prop} {l : List α}
    (h : ∀ a ∈ l, P a) (hf : ∀ a ∈ l, p a = true → P (f a)) :
    ∀ a ∈ updateFirst p f l, P a := by
  induction l with
  | nil => intro a ha; simp [updateFirst] at ha
  | cons x xs ih =>
    intro a ha
    by_cases hx : p x
    · simp only [updateFirst, if_pos hx, List.mem_cons] at ha
      rcases ha with rfl | ha
      · exact hf x (List.mem_cons_self x xs) hx
      · exact h a (List.mem_cons_of_mem x ha)
    · simp only [updateFirst, if_neg hx, List.mem_cons] at ha
      rcases ha with rfl | ha
      · exact h a (List.mem_cons_self a xs)
      · exact ih (fun b hb => h b (List.mem_cons_of_mem x hb))
          (fun b hb => hf b (List.mem_cons_of_mem x hb)) a ha

theorem csum_applyDocOutcome (d : Doc) (res : Except String Verification)
    (st : ProcState) : csum (applyDocOutcome d res st) = csum st + 1 := by
  cases res with
  | ok v =>
    by_cases hskip : v.status == "skip"
    · simp [applyDocOutcome, hskip, csum]; omega
    · by_cases happ : v.status == "approve" <;>
        simp [applyDocOutcome, hskip, happ, csum] <;> omega
  | error m => simp [applyDocOutcome, csum]; omega

theorem csum_processChunk (settled : Doc → Except String Verification)
    (chunk : List Doc) (st : ProcState) :
    csum (processChunk settled chunk st) = csum st + chunk.length := by
  induction chunk generalizing st with
  | nil => simp [processChunk]
  | cons d ds ih =>
    simp only [processChunk, List.foldl_cons] at *
    rw [ih, csum_applyDocOutcome]
    simp [List.length_cons]
    omega

theorem csum_runChunks_le (stopAt : Nat → Bool)
    (settled : Doc → Except String Verification) :
    ∀ (cs : List (List Doc)) (k : Nat) (st : ProcState),
      csum (runChunks stopAt settled k cs st) ≤ csum st + cs.flatten.length := by
  intro cs
  induction cs with
  | nil => intro k st; simp [runChunks]
  | cons c cs ih =>
    intro k st
    by_cases hk : stopAt k
    · simp [runChunks, hk]
    · simp only [runChunks, if_neg hk]
      calc csum (runChunks stopAt settled (k + 1) cs (processChunk settled c st))
          ≤ csum (processChunk settled c st) + cs.flatten.length := ih (k + 1) _
        _ = csum st + c.length + cs.flatten.length := by rw [csum_processChunk]
        _ = csum st + (c :: cs).flatten.length := by
            simp [List.flatten_cons, List.length_append]
            omega

theorem csum_runChunks_eq (stopAt : Nat → Bool)
    (settled : Doc → Except String Verification)
    (hstop : ∀ k, stopAt k = false) :
    ∀ (cs : List (List Doc)) (k : Nat) (st : ProcState),
      csum (runChunks stopAt settled k cs st) = csum st + cs.flatten.length := by
  intro cs
  induction cs with
  | nil => intro k st; simp [runChunks]
  | cons c cs ih =>
    intro k st
    simp only [runChunks, hstop k, if_neg Bool.false_ne_true]
    rw [ih (k + 1), csum_processChunk]
    simp [List.flatten_cons, List.length_append]
    omega

theorem pushBounded_eq_drop (cap : Nat) (l : List α) (e : α) :
    pushBounded cap l e = (l ++ [e]).drop ((l ++ [e]).length - cap) := by
  simp only [pushBounded]
  split
  · rfl
  · next hle =>
    rw [Nat.sub_eq_zero_of_le (by omega), List.drop_zero]

theorem pushBounded_length_le (cap : Nat) (l : List α) (e : α) :
    (pushBounded cap l e).length ≤ cap := by
  rw [pushBounded_eq_drop, List.length_drop, List.length_append]
  simp
  omega

theorem pushBounded_shift (cap : Nat) (l : List α) (e : α) :
    pushBounded cap (l.drop (l.length - cap)) e
      = (l ++ [e]).drop ((l ++ [e]).length - cap) := by
  rw [pushBounded_eq_drop, List.drop_append_eq_append_drop,
    List.drop_append_eq_append_drop, List.drop_drop]
  have h1 : l.length - cap + ((l.drop (l.length - cap) ++ [e]).length - cap)
      = (l ++ [e]).length - cap := by
    simp [List.length_append, List.length_drop]
    omega
  have h2 : (l.drop (l.length - cap) ++ [e]).length - cap - (l.drop (l.length - cap)).length
      = (l ++ [e]).length - cap - l.length := by
    simp [List.length_append, List.length_drop]
    omega
  rw [h1, h2]

theorem foldl_pushBounded (cap : Nat) :
    ∀ (es l : List α), es.foldl (pushBounded cap) (l.drop (l.length - cap))
      = (l ++ es).drop ((l ++ es).length - cap) := by
  intro es
  induction es with
  | nil => intro l; simp
  | cons e es ih =>
    intro l
    rw [List.foldl_cons, pushBounded_shift]
    have h := ih (l ++ [e])
    rw [h]
    simp [List.append_assoc]

theorem foldl_pushBounded_nil (cap : Nat) (es : List α) :
    es.foldl (pushBounded cap) [] = es.drop (es.length - cap) := by
  have h := foldl_pushBounded cap es []
  simpa using h

theorem retryGo_allFail (base : Nat) (label : String)
    (fn : Nat → Except String α) (em : Nat → String)
    (hfn : ∀ n, fn n = .error (em n))
    (hr : ∀ n, nonRetryable (em n) = false) :
    ∀ (r attempt : Nat), 1 ≤ attempt →
      (retryGo base label fn attempt (r + 1)).attemptsMade = r + 1 ∧
      (retryGo base label fn attempt (r + 1)).delays
        = (List.range r).map (fun i => base * 2 ^ (attempt - 1 + i)) ∧
      (retryGo base label fn attempt (r + 1)).result = .error (em (attempt + r)) := by
  intro r
  induction r with
  | zero =>
    intro attempt _
    simp [retryGo, hfn attempt, hr attempt]
  | succ n ih =>
    intro attempt ha
    have h := ih (attempt + 1) (by omega)
    refine ⟨?_, ?_, ?_⟩
    · simp only [retryGo, hfn attempt, hr attempt, if_neg Bool.false_ne_true]
      rw [h.1]
    · simp only [retryGo, hfn attempt, hr attempt, if_neg Bool.false_ne_true]
      rw [h.2.1, List.range_succ_eq_map, List.map_cons, List.map_map]
      refine congrArg₂ _ (by simp) ?_
      refine List.map_congr_left fun i _ => ?_
      have : attempt - 1 + (i + 1) = attempt + 1 - 1 + i := by omega
      simp [Function.comp, this]
    · simp only [retryGo, hfn attempt, hr attempt, if_neg Bool.false_ne_true]
      rw [h.2.2]
      have : attempt + 1 + n = attempt + (n + 1) := by omega
      rw [this]

theorem allDoc_ids_applyDocOutcome (d : Doc) (res : Except String Verification)
    (st : ProcState) :
    (applyDocOutcome d res st).allDocuments.map dtid = st.allDocuments.map dtid := by
  cases res with
  | ok v =>
    by_cases hskip : v.status == "skip"
    · simp only [applyDocOutcome, hskip, if_pos]
      apply map_updateFirst
      intro a
      rfl
    · simp only [applyDocOutcome, hskip]
      simp only [if_neg Bool.false_ne_true]
      apply map_updateFirst
      intro a
      rfl
  | error m =>
    simp only [applyDocOutcome]
    apply map_updateFirst
    intro a
    rfl

theorem allDoc_ids_processChunk (settled : Doc → Except String Verification)
    (chunk : List Doc) (st : ProcState) :
    (processChunk settled chunk st).allDocuments.map dtid
      = st.allDocuments.map dtid := by
  induction chunk generalizing st with
  | nil => rfl
  | cons d ds ih =>
    simp only [processChunk, List.foldl_cons] at *
    rw [ih, allDoc_ids_applyDocOutcome]

theorem allDoc_ids_runChunks (stopAt : Nat → Bool)
    (settled : Doc → Except String Verification) :
    ∀ (cs : List (List Doc)) (k : Nat) (st : ProcState),
      (runChunks stopAt settled k cs st).allDocuments.map dtid
        = st.allDocuments.map dtid := by
  intro cs
  induction cs with
  | nil => intro k st; rfl
  | cons c cs ih =>
    intro k st
    by_cases hk : stopAt k
    · simp [runChunks, hk]
    · simp only [runChunks, if_neg hk]
      rw [ih (k + 1), allDoc_ids_processChunk]

theorem applyDocOutcome_preserves_null {tid : Nat} (d : Doc)
    (res : Except String Verification) (st : ProcState)
    (hd : d.document_type_id ≠ tid)
    (h : ∀ a ∈ st.allDocuments, a.document_type_id = tid →
      a.ai_status = none ∧ a.is_uploaded = false) :
    ∀ a ∈ (applyDocOutcome d res st).allDocuments, a.document_type_id = tid →
      a.ai_status = none ∧ a.is_uploaded = false := by
  have step : ∀ (f : AllDocEntry → AllDocEntry),
      (∀ a, (f a).document_type_id = a.document_type_id) →
      ∀ a ∈ updateFirst (fun a => a.document_type_id == d.document_type_id) f
        st.allDocuments,
        a.document_type_id = tid → a.ai_status = none ∧ a.is_uploaded = false := by
    intro f hf
    refine updateFirst_preserve h fun a ha hp => ?_
    intro hEq
    exfalso
    have : a.document_type_id = d.document_type_id := by
      simpa using hp
    rw [hf a] at hEq
    exact hd (by omega)
  cases res with
  | ok v =>
    by_cases hskip : v.status == "skip"
    · simp only [applyDocOutcome, hskip, if_pos]
      exact step _ (fun a => rfl)
    · simp only [applyDocOutcome, hskip, if_neg Bool.false_ne_true]
      exact step _ (fun a => rfl)
  | error m =>
    simp only [applyDocOutcome]
    exact step _ (fun a => rfl)

theorem processChunk_preserves_null {tid : Nat}
    (settled : Doc → Except String Verification) (chunk : List Doc)
    (hne : ∀ d0 ∈ chunk, d0.document_type_id ≠ tid) :
    ∀ (st : ProcState),
      (∀ a ∈ st.allDocuments, a.document_type_id = tid →
        a.ai_status = none ∧ a.is_uploaded = false) →
      ∀ a ∈ (processChunk settled chunk st).allDocuments,
        a.document_type_id = tid → a.ai_status = none ∧ a.is_uploaded = false := by
  induction chunk with
  | nil => intro st h; exact h
  | cons d ds ih =>
    intro st h
    simp only [processChunk, List.foldl_cons]
    exact ih (fun d0 hd0 => hne d0 (List.mem_cons_of_mem d hd0)) _
      (applyDocOutcome_preserves_null d (settled d) st
        (hne d (List.mem_cons_self d ds)) h)

theorem runChunks_preserves_null {tid : Nat} (stopAt : Nat → Bool)
    (settled : Doc → Except String Verification) :
    ∀ (cs : List (List Doc)) (k : Nat) (st : ProcState),
      (∀ d0 ∈ cs.flatten, d0.document_type_id ≠ tid) →
      (∀ a ∈ st.allDocuments, a.document_type_id = tid →
        a.ai_status = none ∧ a.is_uploaded = false) →
      ∀ a ∈ (runChunks stopAt settled k cs st).allDocuments,
        a.document_type_id = tid → a.ai_status = none ∧ a.is_uploaded = false := by
  intro cs
  induction cs with
  | nil => intro k st _ h; exact h
  | cons c cs ih =>
    intro k st hne h
    by_cases hk : stopAt k
    · simp only [runChunks, if_pos hk]; exact h
    · simp only [runChunks, if_neg hk]
      refine ih (k + 1) _ (fun d0 hd0 => hne d0 ?_) ?_
      · simp only [List.flatten_cons, List.mem_append]
        exact Or.inr hd0
      · exact processChunk_preserves_null settled c
          (fun d0 hd0 => hne d0 (by
            simp only [List.flatten_cons, List.mem_append]
            exact Or.inl hd0)) st h

/-! Claim theorems. -/

/-- C1 counterexample: in the spec's scenario (A transiently fails twice then
approves, B rejects at once, C has no content reference; concurrency 2, 3
retry attempts) the code yields `skipped = 0`, not `skipped = 1` as claimed:
item C is filtered out before the chunk loop, so the skip branch of the loop
never fires for it. -/
theorem c1_scenario_skipped_refuted :
    resScn.totalDocs = 2 ∧ resScn.skipped = 0 ∧ ¬(resScn.skipped = 1) := by
  decide

/-- C1 (amended): in the scenario the finalized SubjectResult has total = 2,
approved = 1, rejected = 1, errors = 0, status = completed, and skipped = 0 —
item C is excluded before counting and is recorded only in `allDocuments` as
not uploaded with a null outcome. -/
theorem c1_scenario_amended :
    resScn.totalDocs = 2 ∧ resScn.approved = 1 ∧ resScn.rejected = 1 ∧
    resScn.skipped = 0 ∧ resScn.errors = 0 ∧ resScn.uploaded = 2 ∧
    resScn.status = "completed" ∧
    resScn.allDocuments.map (fun a => (a.document_type_id, a.is_uploaded, a.ai_status))
      = [(1, true, some "Verified"), (2, true, some "reject"), (3, false, none)] := by
  decide

/-- C2 counterexample: with two candidate items under concurrency 1 and the
stop flag observed before the second chunk, the result finalizes as
`completed` with `totalDocs = 2` but counter sum 1, violating
`approved + rejected + errors + skipped == total`. -/
theorem c2_stop_breaks_equality :
    resStop.status = "completed" ∧ resStop.totalDocs = 2 ∧
    resStop.approved + resStop.rejected + resStop.errors + resStop.skipped = 1 ∧
    ¬(resStop.approved + resStop.rejected + resStop.errors + resStop.skipped
        = resStop.totalDocs) := by
  decide

/-- C2 (amended): for every finalized SubjectResult the counter sum is at most
`totalDocs`, with equality whenever the cooperative stop signal is never
observed; a stop between chunks may leave the sum strictly below the total. -/
theorem c2_counters_amended (cfg : Config) (applnID studentName : String)
    (fetch : FetchResult) (beh : Doc → Nat → Except String Verification)
    (stopAt : Nat → Bool) (hC : 1 ≤ cfg.concurrency) :
    (processStudent cfg applnID studentName fetch beh stopAt).approved
        + (processStudent cfg applnID studentName fetch beh stopAt).rejected
        + (processStudent cfg applnID studentName fetch beh stopAt).errors
        + (processStudent cfg applnID studentName fetch beh stopAt).skipped
      ≤ (processStudent cfg applnID studentName fetch beh stopAt).totalDocs ∧
    ((∀ k, stopAt k = false) →
      (processStudent cfg applnID studentName fetch beh stopAt).approved
          + (processStudent cfg applnID studentName fetch beh stopAt).rejected
          + (processStudent cfg applnID studentName fetch beh stopAt).errors
          + (processStudent cfg applnID studentName fetch beh stopAt).skipped
        = (processStudent cfg applnID studentName fetch beh stopAt).totalDocs) := by
  cases fetch with
  | failed m => simp [processStudent]
  | noData => simp [processStudent]
  | ok docs =>
    by_cases h0 : (candidateDocs cfg docs).length = 0
    · simp [processStudent, h0]
    · have hle := csum_runChunks_le stopAt
        (fun d0 => (verifyDocument cfg.retryAttempts cfg.retryDelayMs (beh d0) d0).result)
        (chunkArray (candidateDocs cfg docs) cfg.concurrency) 0
        ⟨0, 0, 0, 0, [], [], docs.map initEntry⟩
      rw [chunkArray_flatten hC] at hle
      constructor
      · simp only [processStudent, h0, if_neg]
        simpa [csum] using hle
      · intro hstop
        have heq := csum_runChunks_eq stopAt
          (fun d0 => (verifyDocument cfg.retryAttempts cfg.retryDelayMs (beh d0) d0).result)
          hstop
          (chunkArray (candidateDocs cfg docs) cfg.concurrency) 0
          ⟨0, 0, 0, 0, [], [], docs.map initEntry⟩
        rw [chunkArray_flatten hC] at heq
        simp only [processStudent, h0, if_neg]
        simpa [csum] using heq

/-- C2 witness: the amended invariant applied to the concrete three-item
scenario, with the stop schedule constantly false. -/
theorem c2_counters_amended_witness :
    resScn.approved + resScn.rejected + resScn.errors + resScn.skipped
      ≤ resScn.totalDocs ∧
    resScn.approved + resScn.rejected + resScn.errors + resScn.skipped
      = resScn.totalDocs := by
  have h := c2_counters_amended scnCfg "S1" "S1" (.ok [docA, docB, docC]) scnBeh
    (fun _ => false) (by decide)
  exact ⟨h.1, h.2 (fun _ => rfl)⟩

/-- C5: an operation throwing a retryable error on every invocation is
attempted exactly `retryAttempts` times; the `i`-th retry (1-based) is
preceded by a sleep of `retryDelayMs * 2 ^ (i - 1)` (the delays list is
`[retryDelayMs * 2 ^ 0, …, retryDelayMs * 2 ^ (retryAttempts - 2)]`), and
after the final attempt the last error propagates to the caller. -/
theorem c5_retry_exhaustion (retryAttempts retryDelayMs : Nat) (label : String)
    (fn : Nat → Except String α) (em : Nat → String)
    (hA : 1 ≤ retryAttempts)
    (hfn : ∀ n, fn n = .error (em n))
    (hr : ∀ n, nonRetryable (em n) = false) :
    (withRetry retryAttempts retryDelayMs label fn).attemptsMade = retryAttempts ∧
    (withRetry retryAttempts retryDelayMs label fn).delays
      = (List.range (retryAttempts - 1)).map (fun i => retryDelayMs * 2 ^ i) ∧
    (withRetry retryAttempts retryDelayMs label fn).result
      = .error (em retryAttempts) := by
  obtain ⟨r, rfl⟩ : ∃ r, retryAttempts = r + 1 := ⟨retryAttempts - 1, by omega⟩
  have h := retryGo_allFail retryDelayMs label fn em hfn hr r 1 le_rfl
  refine ⟨h.1, ?_, ?_⟩
  · rw [withRetry] at *
    rw [h.2.1]
    simp
  · rw [withRetry] at *
    rw [h.2.2]
    have h1r : 1 + r = r + 1 := by omega
    rw [h1r]

/-- C5 witness: three attempts, delays 2000 then 4000 ms, last error
propagated. -/
theorem c5_retry_exhaustion_witness :
    (withRetry 3 2000 "op" (fun _ => (.error "boom" : Except String Nat))).attemptsMade
      = 3 ∧
    (withRetry 3 2000 "op" (fun _ => (.error "boom" : Except String Nat))).delays
      = [2000, 4000] ∧
    (withRetry 3 2000 "op" (fun _ => (.error "boom" : Except String Nat))).result
      = .error "boom" := by
  have h := c5_retry_exhaustion 3 2000 "op"
    (fun _ => (.error "boom" : Except String Nat)) (fun _ => "boom")
    (by decide) (fun _ => rfl)
    (fun _ => by show nonRetryable "boom" = false; decide)
  exact ⟨h.1, h.2.1.trans (by decide), h.2.2⟩

/-- C6: an operation whose first invocation throws an error carrying a
`429`/`quota`/`401`/`403` signature makes exactly one attempt regardless of
the (positive) configured `retryAttempts`, sleeps never, emits a single
error-level log, and propagates the error. -/
theorem c6_nonretryable_single_attempt (retryAttempts retryDelayMs : Nat)
    (label msg : String) (fn : Nat → Except String α)
    (hA : 1 ≤ retryAttempts) (h1 : fn 1 = .error msg)
    (hnr : nonRetryable msg = true) :
    withRetry retryAttempts retryDelayMs label fn
      = ⟨.error msg, 1, [],
          [⟨"error", label ++ " failed with non-retryable error: " ++ msg⟩]⟩ := by
  obtain ⟨r, rfl⟩ : ∃ r, retryAttempts = r + 1 := ⟨retryAttempts - 1, by omega⟩
  cases r with
  | zero => simp [withRetry, retryGo, h1, hnr]
  | succ n => simp [withRetry, retryGo, h1, hnr]

/-- C6 witness: a 429-signature failure under `retryAttempts = 5` settles
after one attempt with no delay and one error log. -/
theorem c6_nonretryable_single_attempt_witness :
    withRetry 5 2000 "op" (fun _ => (.error "HTTP 429" : Except String Nat))
      = ⟨.error "HTTP 429", 1, [],
          [⟨"error", "op" ++ " failed with non-retryable error: " ++ "HTTP 429"⟩]⟩ :=
  c6_nonretryable_single_attempt 5 2000 "op" "HTTP 429"
    (fun _ => (.error "HTTP 429" : Except String Nat)) (by decide) rfl (by decide)

/-- C8: for any concurrency limit C ≥ 1, `chunkArray` partitions the ordered
candidate list into consecutive chunks each of size at most C whose
concatenation is the original list; the chunk loop (`runChunks`) consumes
these chunks strictly one after the other, so at most C verification tasks
are dispatched at once. -/
theorem c8_worker_pool_chunking {α : Type} (l : List α) (C : Nat) (hC : 1 ≤ C) :
    (∀ c ∈ chunkArray l C, c.length ≤ C) ∧ (chunkArray l C).flatten = l :=
  ⟨fun _ hc => chunkArray_mem_length hc, chunkArray_flatten hC l⟩

/-- C8 witness: five tasks under concurrency 2 split as sizes ≤ 2 rejoining to
the original list. -/
theorem c8_worker_pool_chunking_witness :
    (∀ c ∈ chunkArray [1, 2, 3, 4, 5] 2, c.length ≤ 2) ∧
    (chunkArray [1, 2, 3, 4, 5] 2).flatten = [1, 2, 3, 4, 5] :=
  c8_worker_pool_chunking [1, 2, 3, 4, 5] 2 (by decide)

/-- C9: for capacity N, inserting N + 1 entries into an empty log buffer
leaves exactly the newest N in insertion order; any single insertion leaves
the buffer at length ≤ N; and (for pairwise-distinct entries) the oldest
entry is absent afterwards. -/
theorem c9_log_buffer_bound (N : Nat) (es : List LogEntry)
    (h : es.length = N + 1) :
    es.foldl (pushBounded N) [] = es.drop 1 ∧
    (∀ (buf : List LogEntry) (e : LogEntry), (pushBounded N buf e).length ≤ N) ∧
    (es.Nodup → ∀ e0 ∈ es.head?, e0 ∉ es.foldl (pushBounded N) []) := by
  have hfold : es.foldl (pushBounded N) [] = es.drop 1 := by
    rw [foldl_pushBounded_nil, h]
    simp
  refine ⟨hfold, fun buf e => pushBounded_length_le N buf e, ?_⟩
  intro hnd e0 he0
  rw [hfold]
  cases es with
  | nil => simp at he0
  | cons x xs =>
    simp only [List.head?_cons, Option.mem_def, Option.some.injEq] at he0
    subst he0
    simp only [List.drop_one, List.tail_cons]
    exact (List.nodup_cons.mp hnd).1

/-- C9 witness: capacity 2 with three distinct insertions keeps the newest
two and drops the first. -/
theorem c9_log_buffer_bound_witness :
    ([⟨"info", "a"⟩, ⟨"info", "b"⟩, ⟨"info", "c"⟩] : List LogEntry).foldl
        (pushBounded 2) []
      = [⟨"info", "b"⟩, ⟨"info", "c"⟩] ∧
    (⟨"info", "a"⟩ : LogEntry)
      ∉ ([⟨"info", "a"⟩, ⟨"info", "b"⟩, ⟨"info", "c"⟩] : List LogEntry).foldl
          (pushBounded 2) [] := by
  have h := c9_log_buffer_bound 2 [⟨"info", "a"⟩, ⟨"info", "b"⟩, ⟨"info", "c"⟩]
    (by decide)
  exact ⟨h.1, h.2.2 (by decide) _ rfl⟩

/-- C3 counterexample: after the scenario's on-demand run finalizes
(`isRunning = false`, run status `completed`), `getRunDetail` on its id still
returns the run with the full per-subject detail (`students` present),
because `finishRun` never clears `currentRun`; only the history copy is
stripped. -/
theorem c3_finalized_detail_not_stripped :
    (scnVss.toOption.map (fun p => p.2.isRunning)) = some false ∧
    (scnVss.toOption.map (fun p =>
        (getRunDetail p.2 "r1").map (fun r => (r.status, r.students.isSome))))
      = some (some ("completed", true)) ∧
    (scnVss.toOption.map (fun p => p.2.runs.map (fun r => r.students.isSome)))
      = some [false] := by
  decide

/-- C3 (amended): `getRunDetail` returns the full run object whenever the
queried id matches `currentRun` — while the run is active and equally after it
has finalized, since `finishRun` does not clear `currentRun`; finalize pushes
only the detail-stripped summary into bounded history, so only runs looked up
from history come back as summaries. -/
theorem c3_run_detail_amended (st : SchedState) (r : Run) (rid : String)
    (hcur : st.currentRun = some r) (hid : r.id = rid) :
    getRunDetail st rid = some r ∧
    (finishRun st).runs = pushBounded maxRuns st.runs { r with students := none } ∧
    getRunDetail (finishRun st) rid = some r := by
  have hbeq : (r.id == rid) = true := by simp [hid]
  refine ⟨?_, ?_, ?_⟩
  · simp [getRunDetail, hcur, hbeq]
  · simp [finishRun, hcur]
  · simp [getRunDetail, finishRun, hcur, hbeq]

/-- C3 witness: a concrete state holding a current run named `rx`. -/
theorem c3_run_detail_amended_witness :
    getRunDetail ⟨true, false, some (freshRun "rx" 0), [], [], []⟩ "rx"
      = some (freshRun "rx" 0) ∧
    (finishRun ⟨true, false, some (freshRun "rx" 0), [], [], []⟩).runs
      = pushBounded maxRuns [] { freshRun "rx" 0 with students := none } ∧
    getRunDetail (finishRun ⟨true, false, some (freshRun "rx" 0), [], [], []⟩) "rx"
      = some (freshRun "rx" 0) :=
  c3_run_detail_amended ⟨true, false, some (freshRun "rx" 0), [], [], []⟩
    (freshRun "rx" 0) "rx" rfl rfl

/-- C4 counterexample: item C (no content reference) is indeed never
dispatched, but it does not yield a recorded `skipped` outcome: the scenario
result has no `documents` entry for it, `skipped = 0`, and its `allDocuments`
entry keeps a null outcome rather than `skipped`. -/
theorem c4_no_skip_outcome_recorded :
    hasContent docC.file_url = false ∧
    (∀ q ∈ resScn.documents, q.document_type_id ≠ docC.document_type_id) ∧
    resScn.skipped = 0 ∧
    (∀ a ∈ resScn.allDocuments, a.document_type_id = docC.document_type_id →
      a.ai_status = none) := by
  decide

/-- C4 (amended): a WorkItem with no content reference is never passed to the
Verification Backend — `verifyDocument` on it settles as a skip outcome with
zero backend attempts, and inside `processStudent` it never enters the
dispatched chunks; it is not recorded as a `skipped` outcome, though: its
`allDocuments` entry (ids preserved) keeps `ai_status = null` and
`is_uploaded = false` (assuming pairwise-distinct work-item ids). -/
theorem c4_amended (retryAttempts retryDelayMs : Nat)
    (beh0 : Nat → Except String Verification) (d0 : Doc)
    (cfg : Config) (applnID studentName : String) (docs : List Doc)
    (beh : Doc → Nat → Except String Verification) (stopAt : Nat → Bool) (d : Doc)
    (hd0 : hasContent d0.file_url = false)
    (hd : d ∈ docs) (hno : hasContent d.file_url = false)
    (hnodup : (docs.map Doc.document_type_id).Nodup) :
    verifyDocument retryAttempts retryDelayMs beh0 d0 = ⟨.ok skipVerification, 0⟩ ∧
    d ∉ (chunkArray (candidateDocs cfg docs) cfg.concurrency).flatten ∧
    (processStudent cfg applnID studentName (.ok docs) beh stopAt).allDocuments.map dtid
      = docs.map Doc.document_type_id ∧
    (∀ a ∈ (processStudent cfg applnID studentName (.ok docs) beh stopAt).allDocuments,
      a.document_type_id = d.document_type_id →
        a.ai_status = none ∧ a.is_uploaded = false) := by
  have hinj := List.inj_on_of_nodup_map hnodup
  have hcand : ∀ d1 ∈ candidateDocs cfg docs,
      d1 ∈ docs ∧ hasContent d1.file_url = true := by
    intro d1 hd1
    simp only [candidateDocs] at hd1
    split at hd1
    · have h1 := List.mem_filter.mp hd1
      have h2 := List.mem_filter.mp h1.1
      exact ⟨h2.1, h2.2⟩
    · have h2 := List.mem_filter.mp hd1
      exact ⟨h2.1, h2.2⟩
  have hneq : ∀ d1 ∈ candidateDocs cfg docs,
      d1.document_type_id ≠ d.document_type_id := by
    intro d1 hd1 heq
    obtain ⟨hmem, hup⟩ := hcand d1 hd1
    have hde : d1 = d := hinj hmem hd heq
    rw [hde, hno] at hup
    exact Bool.false_ne_true hup
  have hinit : ∀ a ∈ docs.map initEntry, a.document_type_id = d.document_type_id →
      a.ai_status = none ∧ a.is_uploaded = false := by
    intro a ha heq
    obtain ⟨d2, hd2, rfl⟩ := List.mem_map.mp ha
    have hid2 : d2.document_type_id = d.document_type_id := heq
    have hde : d2 = d := hinj hd2 hd hid2
    subst hde
    exact ⟨rfl, by simpa [initEntry] using hno⟩
  have hmapinit : (docs.map initEntry).map dtid = docs.map Doc.document_type_id := by
    rw [List.map_map]
    rfl
  refine ⟨by simp [verifyDocument, hd0], ?_, ?_, ?_⟩
  · intro hmem
    have h1 := chunkArray_mem_flatten hmem
    obtain ⟨_, hup⟩ := hcand d h1
    rw [hno] at hup
    exact Bool.false_ne_true hup
  · by_cases h0 : (candidateDocs cfg docs).length = 0
    · simp only [processStudent, h0, eq_self_iff_true, if_true]
      exact hmapinit
    · simp only [processStudent, h0, if_false]
      rw [allDoc_ids_runChunks]
      exact hmapinit
  · by_cases h0 : (candidateDocs cfg docs).length = 0
    · simp only [processStudent, h0, eq_self_iff_true, if_true]
      exact hinit
    · simp only [processStudent, h0, if_false]
      refine runChunks_preserves_null stopAt _ _ 0 _ ?_ hinit
      intro d1 hd1
      exact hneq d1 (chunkArray_mem_flatten hd1)

/-- C4 witness: the amended statement applied to the concrete scenario with
item C as the reference-less WorkItem. -/
theorem c4_amended_witness :
    verifyDocument 3 2000 (fun _ => .ok approveV) docC = ⟨.ok skipVerification, 0⟩ ∧
    docC ∉ (chunkArray (candidateDocs scnCfg [docA, docB, docC]) scnCfg.concurrency).flatten ∧
    (processStudent scnCfg "S1" "S1" (.ok [docA, docB, docC]) scnBeh
        (fun _ => false)).allDocuments.map dtid
      = [docA, docB, docC].map Doc.document_type_id ∧
    (∀ a ∈ (processStudent scnCfg "S1" "S1" (.ok [docA, docB, docC]) scnBeh
        (fun _ => false)).allDocuments,
      a.document_type_id = docC.document_type_id →
        a.ai_status = none ∧ a.is_uploaded = false) :=
  c4_amended 3 2000 (fun _ => .ok approveV) docC scnCfg "S1" "S1"
    [docA, docB, docC] scnBeh (fun _ => false) docC (by decide) (by decide)
    (by decide) (by decide)

/-- C7: while a run is active, `runBatch` resolves to `null` leaving the
state untouched apart from one warning log, and `verifySingleStudent` throws
the busy error without any state change. -/
theorem c7_busy_guards (cfg : Config) (rid : String)
    (input : Except String (Option (List StudentInput))) (stopStudent : Nat → Bool)
    (applnID : String) (fetch : FetchResult)
    (beh : Doc → Nat → Except String Verification) (stopChunk : Nat → Bool)
    (st : SchedState) (h : st.isRunning = true) :
    runBatch cfg rid input stopStudent st
      = (none, logPush st "warn" "Batch already running, skipping") ∧
    (runBatch cfg rid input stopStudent st).2.currentRun = st.currentRun ∧
    (runBatch cfg rid input stopStudent st).2.runs = st.runs ∧
    (runBatch cfg rid input stopStudent st).2.isRunning = true ∧
    verifySingleStudent cfg rid applnID fetch beh stopChunk st
      = .error "A batch job is currently running. Wait for it to finish or stop it first." := by
  refine ⟨?_, ?_, ?_, ?_, ?_⟩ <;> simp [runBatch, verifySingleStudent, logPush, h]

/-- C7 witness: the guards observed from a concrete busy state. -/
theorem c7_busy_guards_witness :
    runBatch scnCfg "r2" (.ok none) (fun _ => false) busyState
      = (none, logPush busyState "warn" "Batch already running, skipping") ∧
    (runBatch scnCfg "r2" (.ok none) (fun _ => false) busyState).2.currentRun
      = busyState.currentRun ∧
    (runBatch scnCfg "r2" (.ok none) (fun _ => false) busyState).2.runs
      = busyState.runs ∧
    (runBatch scnCfg "r2" (.ok none) (fun _ => false) busyState).2.isRunning = true ∧
    verifySingleStudent scnCfg "r2" "S1" .noData scnBeh (fun _ => false) busyState
      = .error "A batch job is currently running. Wait for it to finish or stop it first." :=
  c7_busy_guards scnCfg "r2" (.ok none) (fun _ => false) "S1" .noData scnBeh
    (fun _ => false) busyState rfl

/-- C10: an on-demand single-subject run that starts (no batch active) always
finalizes with run status `completed` and releases the mutual-exclusion flag;
a subject ending in `error` or `skipped` shows up only in the run's
errors/skipped counters, never in the run status. -/
theorem c10_single_run_completed (cfg : Config) (rid applnID : String)
    (fetch : FetchResult) (beh : Doc → Nat → Except String Verification)
    (stopChunk : Nat → Bool) (st : SchedState) (h : st.isRunning = false) :
    ((verifySingleStudent cfg rid applnID fetch beh stopChunk st).toOption.map
        (fun p => p.1.status)) = some "completed" ∧
    ((verifySingleStudent cfg rid applnID fetch beh stopChunk st).toOption.map
        (fun p => p.2.isRunning)) = some false ∧
    ((processStudent cfg applnID applnID fetch beh stopChunk).status = "error" →
      (verifySingleStudent cfg rid applnID fetch beh stopChunk st).toOption.map
          (fun p => (p.1.errors, p.1.skipped)) = some (1, 0)) ∧
    ((processStudent cfg applnID applnID fetch beh stopChunk).status = "skipped" →
      (verifySingleStudent cfg rid applnID fetch beh stopChunk st).toOption.map
          (fun p => (p.1.errors, p.1.skipped)) = some (0, 1)) := by
  refine ⟨?_, ?_, ?_, ?_⟩
  · simp [verifySingleStudent, h, Except.toOption]
  · simp [verifySingleStudent, h, Except.toOption, finishRun]
  · intro hs
    simp [verifySingleStudent, h, Except.toOption, tallyStudent, freshRun, hs]
  · intro hs
    simp [verifySingleStudent, h, Except.toOption, tallyStudent, freshRun, hs]

/-- C10 witness: a subject whose fetch returns no data ends `skipped`, yet the
single-subject run finalizes as `completed` with `skipped = 1`. -/
theorem c10_single_run_completed_witness :
    ((verifySingleStudent scnCfg "r3" "S1" .noData scnBeh (fun _ => false)
        idleState).toOption.map (fun p => p.1.status)) = some "completed" ∧
    ((verifySingleStudent scnCfg "r3" "S1" .noData scnBeh (fun _ => false)
        idleState).toOption.map (fun p => (p.1.errors, p.1.skipped)))
      = some (0, 1) := by
  have h := c10_single_run_completed scnCfg "r3" "S1" .noData scnBeh
    (fun _ => false) idleState rfl
  exact ⟨h.1, h.2.2.2 (by decide)⟩

end VideoKyc
